import Mathlib

/-!
Verification of the CodeTraverse TypeScript/Node.js bridge
(`src/bridge/src/bridge.ts`, `src/bridge/src/python-runner.ts`,
`src/bridge/src/types.ts`).

The bridge spawns an external analysis engine as a subprocess, validates
inputs before spawning (language membership, filesystem paths), enforces
timeouts, and decodes the engine's line-oriented text reports into typed
results.  This development is a shallow embedding of those parts, with
JavaScript strings modelled as `String`/`List Char`, promises that resolve
or reject as `Except`, and the asynchronous process callbacks abstracted
into an explicit event describing which callback settled the promise.
-/

namespace CodeTraverse

/-! ## JavaScript string primitives

`String.prototype.trim`, `String.prototype.split`, `String.prototype.includes`
and the character classes `\s` (whitespace) and `.` (any character except a
line terminator) used by the regular expression in
`CodeTraverseBridge.parseNeighborResult`. -/

/-- JavaScript whitespace: the characters matched by `\s` and removed by
`String.prototype.trim` (ASCII whitespace, NBSP, the Unicode space
separators, the line separators, narrow/medium spaces, ideographic space
and the BOM). -/
def isJsWhitespace (c : Char) : Bool :=
  let n := c.toNat
  n = 0x20 || n = 0x09 || n = 0x0a || n = 0x0d || n = 0x0b || n = 0x0c ||
  n = 0xa0 || n = 0x1680 || (0x2000 ≤ n && n ≤ 0x200a) ||
  n = 0x2028 || n = 0x2029 || n = 0x202f || n = 0x205f || n = 0x3000 || n = 0xfeff

/-- The characters matched by `.` in a JavaScript regular expression
(without the `s` flag): everything except a line terminator
(LF, CR, LINE SEPARATOR, PARAGRAPH SEPARATOR). -/
def isJsDot (c : Char) : Bool :=
  let n := c.toNat
  !(n = 0x0a || n = 0x0d || n = 0x2028 || n = 0x2029)

/-- Model of `String.prototype.trim` on a character list. -/
def jsTrimList (l : List Char) : List Char :=
  ((l.dropWhile isJsWhitespace).reverse.dropWhile isJsWhitespace).reverse

/-- Model of `String.prototype.trim`. -/
def jsTrim (s : String) : String :=
  ⟨jsTrimList s.data⟩

/-- Auxiliary for `splitOnChar`: `cur` is the reversed current segment. -/
def splitOnCharAux (c : Char) (cur : List Char) : List Char → List (List Char)
  | [] => [cur.reverse]
  | x :: xs =>
      if x = c then cur.reverse :: splitOnCharAux c [] xs
      else splitOnCharAux c (x :: cur) xs

/-- Model of `String.prototype.split` with a single-character separator: splits on
every occurrence of `c`; yields `[[]]` on the empty string. -/
def splitOnChar (c : Char) (l : List Char) : List (List Char) :=
  splitOnCharAux c [] l

/-- Model of `String.prototype.includes` on character lists (substring search). -/
def containsSub (needle : List Char) : List Char → Bool
  | [] => needle.isEmpty
  | hay@(_ :: rest) => List.isPrefixOf needle hay || containsSub needle rest

/-! ## The edge regular expression

`parseNeighborResult` matches each line against
`/(.+?)\s+--\[(.+?)\]-->\s+(.+)/` and takes the three capture groups
(source, relation, target).  The functions below model the JavaScript
backtracking search for this pattern: the leftmost starting position wins;
`(.+?)` is lazy (shortest capture first); `\s+` is greedy but, since the
literal `--[` resp. the final group follow it, its extent is forced as
described at each function. -/

/-- The suffix `\s+(.+)` of the edge pattern, applied to the text after
`]-->`.  `\s+` greedily consumes `j` leading whitespace characters
(backtracking from the longest run down to one) until `(.+)` can match,
i.e. until the next character is a `.`-character; `(.+)` then greedily
captures the maximal run of `.`-characters. -/
def edgeTailAux (tail : List Char) : Nat → Option (List Char)
  | 0 => none
  | j + 1 =>
      match tail.drop (j + 1) with
      | c :: rest =>
          if isJsDot c then some ((c :: rest).takeWhile isJsDot)
          else edgeTailAux tail j
      | [] => edgeTailAux tail j

/-- Match `\s+(.+)` against `tail`, returning the last capture group. -/
def edgeTail (tail : List Char) : Option (List Char) :=
  edgeTailAux tail (tail.takeWhile isJsWhitespace).length

/-- Scan for the second capture group: `(.+?)\]-->\s+(.+)` applied to the
text after `--[`.  The lazy group grows one `.`-character at a time; the
first end position at which the literal `]-->` and then `\s+(.+)` match
wins.  Returns the second and third capture groups. -/
def edgeGroup2 (acc : List Char) : List Char → Option (List Char × List Char)
  | [] => none
  | c :: rest =>
      if isJsDot c then
        if List.isPrefixOf ("]-->".data) rest then
          match edgeTail (rest.drop 4) with
          | some g3 => some (acc ++ [c], g3)
          | none => edgeGroup2 (acc ++ [c]) rest
        else edgeGroup2 (acc ++ [c]) rest
      else none

/-- Scan for the first capture group at a fixed starting position:
`(.+?)\s+--\[(.+?)\]-->\s+(.+)`.  The lazy first group grows one
`.`-character at a time; after it, `\s+` must match a nonempty whitespace
run and, because `--[` begins with a non-whitespace character, the literal
can only follow the maximal run. -/
def edgeGroup1 (acc : List Char) : List Char → Option (List Char × List Char × List Char)
  | [] => none
  | c :: rest =>
      if isJsDot c then
        let g1 := acc ++ [c]
        let m := (rest.takeWhile isJsWhitespace).length
        if 1 ≤ m && List.isPrefixOf ("--[".data) (rest.drop m) then
          match edgeGroup2 [] (rest.drop (m + 3)) with
          | some (g2, g3) => some (g1, g2, g3)
          | none => edgeGroup1 g1 rest
        else edgeGroup1 g1 rest
      else none

/-- Model of `line.match(/(.+?)\s+--\[(.+?)\]-->\s+(.+)/)`: try each starting
position from the left; at each, run the backtracking search for the
pattern; the leftmost position with a match wins.  Returns the three
capture groups `(from, relation, to)`. -/
def matchEdge : List Char → Option (List Char × List Char × List Char)
  | [] => none
  | l@(_ :: rest) =>
      match edgeGroup1 [] l with
      | some r => some r
      | none => matchEdge rest

/-! ## Result decoders (`bridge.ts`) -/

/-- Model of `PathResult` (types.ts): the optional `path` field is `Option`. -/
structure PathResult where
  found : Bool
  path : Option (List String)
  message : String
  deriving DecidableEq, Repr

/-- Model of `CodeTraverseBridge.parsePathResult` (bridge.ts:320-342):
trim, split into lines, find the first line containing `'→'`; if found,
split that line on `'→'`, trim each part, and report the parts as the path
(`parts.length > 1 ? parts : null`, then `pathMatch || []`); otherwise
report not-found.  `message` is the raw input in both cases. -/
def parsePathResult (stdout : String) : PathResult :=
  let lines := splitOnChar '\n' (jsTrimList stdout.data)
  match lines.find? (fun line => line.contains '→') with
  | some pathLine =>
      let parts := (splitOnChar '→' pathLine).map (fun part => String.mk (jsTrimList part))
      let pathMatch := if parts.length > 1 then some parts else none
      { found := true, path := some (pathMatch.getD []), message := stdout }
  | none => { found := false, path := none, message := stdout }

/-- An entry of `NeighborResult.incoming`: `{ from, relation }`. -/
structure InEdge where
  src : String
  relation : String
  deriving DecidableEq, Repr

/-- An entry of `NeighborResult.outgoing`: `{ to, relation }`. -/
structure OutEdge where
  dst : String
  relation : String
  deriving DecidableEq, Repr

/-- Model of `NeighborResult` (types.ts). -/
structure NeighborResult where
  incoming : List InEdge
  outgoing : List OutEdge
  deriving DecidableEq, Repr

/-- The section variable of `parseNeighborResult`:
`'incoming' | 'outgoing' | null` (the `null` is `Option.none`). -/
inductive EdgeSection where
  | incoming
  | outgoing
  deriving DecidableEq, Repr

/-- Loop state of `parseNeighborResult`: the two accumulators and the
current section. -/
structure NeighborAcc where
  incoming : List InEdge
  outgoing : List OutEdge
  sec : Option EdgeSection
  deriving DecidableEq, Repr

/-- One iteration of the `for (const line of lines)` loop of
`parseNeighborResult` (bridge.ts:354-374): a line containing the banner
`edges INTO` switches to the incoming section, else one containing
`edges OUT OF` switches to the outgoing section; otherwise, if the line
matches the edge pattern and a section is active, the trimmed capture
groups are appended to that section's list (the truthiness guards on the
capture groups always pass: the groups are nonempty). -/
def neighborStep (st : NeighborAcc) (line : List Char) : NeighborAcc :=
  if containsSub ("edges INTO".data) line then
    { st with sec := some EdgeSection.incoming }
  else if containsSub ("edges OUT OF".data) line then
    { st with sec := some EdgeSection.outgoing }
  else
    match matchEdge line, st.sec with
    | some (f, r, _), some EdgeSection.incoming =>
        { st with incoming :=
            st.incoming ++ [⟨String.mk (jsTrimList f), String.mk (jsTrimList r)⟩] }
    | some (_, r, t), some EdgeSection.outgoing =>
        { st with outgoing :=
            st.outgoing ++ [⟨String.mk (jsTrimList t), String.mk (jsTrimList r)⟩] }
    | _, _ => st

/-- Model of `CodeTraverseBridge.parseNeighborResult` (bridge.ts:347-377). -/
def parseNeighborResult (stdout : String) : NeighborResult :=
  let lines := splitOnChar '\n' (jsTrimList stdout.data)
  let st := lines.foldl neighborStep ⟨[], [], none⟩
  ⟨st.incoming, st.outgoing⟩

/-! ## Error taxonomy (types.ts)

Each variant keeps the constructor arguments of the corresponding error
class; the `code` string (`PYTHON_PROCESS_ERROR`, `INVALID_LANGUAGE`,
`FILE_NOT_FOUND`, ...) is determined by the variant. -/

/-- The error classes of types.ts: `PythonProcessError`,
`ShellScriptError`, `InvalidLanguageError`, `FileNotFoundError`. -/
inductive BridgeError where
  | pythonProcess (message : String) (exitCode : Int) (stderr : String)
  | shellScript (message : String) (exitCode : Int) (stderr : String)
  | invalidLanguage (language : String)
  | fileNotFound (filePath : String)
  deriving DecidableEq, Repr

/-- The `{ stdout, stderr }` value a successful invocation resolves with. -/
structure CmdResult where
  stdout : String
  stderr : String
  deriving DecidableEq, Repr

/-! ## Process execution (python-runner.ts)

`executeCommand`/`executeShell` wrap `spawn` in a promise that is settled
by whichever callback runs first: the `'close'` handler (with the exit
code, `null` when the process was killed by a signal), the `'error'`
handler (spawn failure), or the timeout timer firing.  `ProcEvent` is that
settling event; the accumulated stdout/stderr texts at that moment are
explicit parameters. -/

/-- Which callback settles the promise of one invocation. -/
inductive ProcEvent where
  | closed (code : Option Int)
  | errored (msg : String)
  | timedOut
  deriving DecidableEq, Repr

/-- Signals sent to the child process.  Both timeout handlers call
`child.kill('SIGKILL')` and nothing else ever signals the child. -/
inductive KillSignal where
  | sigkill
  deriving DecidableEq, Repr

/-- JavaScript `code || 'unknown'` in the failure message (`code` is a
number or `null`; `0` is falsy). -/
def codeOrUnknown : Option Int → String
  | some n => if n = 0 then "unknown" else toString n
  | none => "unknown"

/-- JavaScript `code || -1` for the `exitCode` field (`0` is falsy). -/
def codeOrNegOne : Option Int → Int
  | some n => if n = 0 then -1 else n
  | none => -1

/-- Model of `const actualTimeout = timeoutMs || this.timeout` — `undefined` and `0`
are falsy, so both select the configured default. -/
def actualTimeoutOf (timeoutMs : Option Int) (defTimeout : Int) : Int :=
  match timeoutMs with
  | some t => if t = 0 then defTimeout else t
  | none => defTimeout

/-- Model of `PythonRunner.executeCommand` (python-runner.ts:259-327): outcome and
kill-signal record of one invocation, as a function of the settling event.
`timeoutMs = some (-1)` marks the invocation that disables the timer
(`runCreateFdepDataAndGraph`), so `ProcEvent.timedOut` presupposes
`timeoutMs ≠ some (-1)`.
- `'close'` with code `0`: resolve with trimmed stdout/stderr;
- `'close'` with any other code: reject with `PythonProcessError`
  carrying `code || -1` and the trimmed stderr;
- `'error'`: reject with `PythonProcessError` carrying `-1` and the
  system message;
- timer fired: `child.kill('SIGKILL')` and reject with
  `PythonProcessError` carrying `-1` and `'Process timeout'`. -/
def executeCommand (timeoutMs : Option Int) (defTimeout : Int) (ev : ProcEvent)
    (stdout stderr : String) : List KillSignal × Except BridgeError CmdResult :=
  let actualTimeout := actualTimeoutOf timeoutMs defTimeout
  match ev with
  | ProcEvent.closed c =>
      if c = some 0 then
        ([], Except.ok ⟨jsTrim stdout, jsTrim stderr⟩)
      else
        ([], Except.error (BridgeError.pythonProcess
          ("Python process exited with code " ++ codeOrUnknown c)
          (codeOrNegOne c) (jsTrim stderr)))
  | ProcEvent.errored msg =>
      ([], Except.error (BridgeError.pythonProcess
        ("Failed to spawn Python process: " ++ msg) (-1) msg))
  | ProcEvent.timedOut =>
      ([KillSignal.sigkill], Except.error (BridgeError.pythonProcess
        ("Python process timed out after " ++ toString actualTimeout ++ "ms")
        (-1) ("Process timeout")))

/-- The fixed ceiling of `executeShell`:
`const actualTimeout = 5 * 60 * 1000` (python-runner.ts:199). -/
def shellTimeoutMs : Int := 5 * 60 * 1000

/-- Model of `PythonRunner.executeShell` (python-runner.ts:195-254): same shape as
`executeCommand`, but the errors are `ShellScriptError`, the non-zero exit
message differs, and the timer is always scheduled with the fixed
`shellTimeoutMs` ceiling. -/
def executeShell (ev : ProcEvent) (stdout stderr : String) :
    List KillSignal × Except BridgeError CmdResult :=
  match ev with
  | ProcEvent.closed c =>
      if c = some 0 then
        ([], Except.ok ⟨jsTrim stdout, jsTrim stderr⟩)
      else
        ([], Except.error (BridgeError.shellScript
          ("shell script exited with code " ++ codeOrUnknown c)
          (codeOrNegOne c) (jsTrim stderr)))
  | ProcEvent.errored msg =>
      ([], Except.error (BridgeError.shellScript
        ("Failed to spawn Python process: " ++ msg) (-1) msg))
  | ProcEvent.timedOut =>
      ([KillSignal.sigkill], Except.error (BridgeError.shellScript
        ("Python process timed out after " ++ toString shellTimeoutMs ++ "ms")
        (-1) ("Process timeout")))

/-- Model of `PythonRunner.createEnv` (python-runner.ts:28-31): one `executeShell`
invocation of the setup script; its result is the result of `createEnv`
(awaited and propagated unchanged by `CodeTraverseBridge.createEnv`). -/
def createEnv (ev : ProcEvent) (stdout stderr : String) :
    List KillSignal × Except BridgeError CmdResult :=
  executeShell ev stdout stderr

/-! ## Timer bookkeeping

`executeCommand` writes `let timer = undefined` and then, inside
`if (timeoutMs != -1) { ... }`, declares `const timer = setTimeout(...)`.
The inner `const` is block-scoped and shadows the outer binding, so the
handle returned by `setTimeout` is never stored in the variable that the
`'close'`/`'error'` handlers pass to `clearTimeout`; they clear
`undefined`.  `executeShell` declares a single function-scoped
`const timer = setTimeout(...)` and clears that handle.  The trace below
records the two facts a leak argument needs: whether a timer was
scheduled, and which handle value the settling handler passes to
`clearTimeout` (`none` = `undefined`). -/

/-- In this model `setTimeout` returns the handle `timerHandle`. -/
def timerHandle : Nat := 0

/-- What one invocation does with its timeout timer. -/
structure TimerTrace where
  scheduled : Bool
  clearArg : Option Nat
  deriving DecidableEq, Repr

/-- Timer bookkeeping of `executeCommand` (python-runner.ts:277-315):
`let timer = undefined`; `if (timeoutMs != -1) { const timer =
setTimeout(...) }` schedules the timer but binds its handle to the
shadowing inner `const`; on `'close'`/`'error'` the handlers call
`clearTimeout(timer)` on the outer binding, which still holds
`undefined`. -/
def executeCommandTimers (timeoutMs : Option Int) : TimerTrace :=
  let outerTimer : Option Nat := none
  let schedule := timeoutMs ≠ some (-1)
  { scheduled := decide schedule, clearArg := outerTimer }

/-- Timer bookkeeping of `executeShell` (python-runner.ts:209-242):
`const timer = setTimeout(...)` at function scope; both the `'close'` and
`'error'` handlers call `clearTimeout(timer)` on that same binding. -/
def executeShellTimers : TimerTrace :=
  let timer : Option Nat := some timerHandle
  { scheduled := true, clearArg := timer }

/-- A scheduled timer is released exactly when the handle passed to
`clearTimeout` is the scheduled handle; an unscheduled timer needs no
release. -/
def timerReleased (t : TimerTrace) : Bool :=
  !t.scheduled || t.clearArg == some timerHandle

/-! ## Path validation and the runner operations (python-runner.ts)

Each runner operation first awaits `validatePath` (fs.promises.access)
for the path it requires and only then builds its argument vector and
calls `executeCommand`.  `RunOutcome` additionally records every argument
vector handed to `spawn` (the real call is
`spawn(uvPath, ["run", ...args], ...)`; the recorded entry is `args`), so
"no process is spawned" is `spawns = []`. -/

/-- Filesystem access is abstracted as a predicate: `fsEx p = true` iff
`fs.promises.access(p, F_OK)` succeeds. -/
def validatePath (fsEx : String → Bool) (filePath : String) :
    Except BridgeError Unit :=
  if fsEx filePath then Except.ok ()
  else Except.error (BridgeError.fileNotFound filePath)

/-- Everything one runner operation did: the argument vectors spawned, the
signals sent, and the settled result. -/
structure RunOutcome where
  spawns : List (List String)
  kills : List KillSignal
  result : Except BridgeError CmdResult

/-- One `executeCommand` call inside a runner operation: records the one
spawn. -/
def executeCommandOp (args : List String) (timeoutMs : Option Int)
    (defTimeout : Int) (ev : ProcEvent) (out err : String) : RunOutcome :=
  let r := executeCommand timeoutMs defTimeout ev out err
  ⟨[args], r.1, r.2⟩

/-- Model of `PythonRunner.runSingleFileAnalysis` (python-runner.ts:83-99). -/
def runSingleFileAnalysis (defTimeout : Int) (fsEx : String → Bool)
    (ev : ProcEvent) (out err : String) (filePath language : String) : RunOutcome :=
  match validatePath fsEx filePath with
  | Except.error e => ⟨[], [], Except.error e⟩
  | Except.ok _ =>
      executeCommandOp
        (["-m", "codetraverse.utils.blackbox", "--SINGLE_FILE", filePath,
          "--LANGUAGE", language, "--OUTPUT_FORMAT", "json", "--QUIET"])
        none defTimeout ev out err

/-- Model of `PythonRunner.runAnalysis` (python-runner.ts:36-59); the optional
output directories append their flags when present (a JavaScript
truthiness test; `none` models `undefined`). -/
def runAnalysis (defTimeout : Int) (fsEx : String → Bool) (ev : ProcEvent)
    (out err : String) (rootDir language : String)
    (outputBase graphDir : Option String) : RunOutcome :=
  match validatePath fsEx rootDir with
  | Except.error e => ⟨[], [], Except.error e⟩
  | Except.ok _ =>
      let args := ["-m", "codetraverse.utils.blackbox", "--ROOT_DIR", rootDir,
        "--LANGUAGE", language]
      let args := args ++ (match outputBase with
        | some ob => ["--OUTPUT_BASE", ob]
        | none => [])
      let args := args ++ (match graphDir with
        | some gd => ["--GRAPH_DIR", gd]
        | none => [])
      executeCommandOp args none defTimeout ev out err

/-- Model of `PythonRunner.runSchemaExtraction` (python-runner.ts:104-129). -/
def runSchemaExtraction (defTimeout : Int) (fsEx : String → Bool)
    (ev : ProcEvent) (out err : String) (rootDir language : String)
    (outputBase graphDir : Option String) : RunOutcome :=
  match validatePath fsEx rootDir with
  | Except.error e => ⟨[], [], Except.error e⟩
  | Except.ok _ =>
      let args := ["-m", "codetraverse.utils.blackbox", "--ROOT_DIR", rootDir,
        "--LANGUAGE", language, "--JSON_SCHEMA", "--QUIET"]
      let args := args ++ (match outputBase with
        | some ob => ["--OUTPUT_BASE", ob]
        | none => [])
      let args := args ++ (match graphDir with
        | some gd => ["--GRAPH_DIR", gd]
        | none => [])
      executeCommandOp args none defTimeout ev out err

/-- The inline Python snippet of `runPathQuery`. -/
def pathQuerySnippet (graphPath component : String) (source : Option String) : String :=
  match source with
  | some src =>
      ("import codetraverse.path as codepath;codepath.find_path(\"" ++ graphPath
        ++ "\", \"" ++ component ++ "\", \"" ++ src ++ "\")")
  | none =>
      ("import codetraverse.path as codepath;codepath.find_path(\"" ++ graphPath
        ++ "\", \"" ++ component ++ "\")")

/-- Model of `PythonRunner.runPathQuery` (python-runner.ts:64-78). -/
def runPathQuery (defTimeout : Int) (fsEx : String → Bool) (ev : ProcEvent)
    (out err : String) (graphPath component : String)
    (source : Option String) : RunOutcome :=
  match validatePath fsEx graphPath with
  | Except.error e => ⟨[], [], Except.error e⟩
  | Except.ok _ =>
      executeCommandOp
        (["python", "-c", pathQuerySnippet graphPath component source])
        none defTimeout ev out err

/-! ## The bridge façade (bridge.ts) -/

/-- Model of `CodeTraverseBridge.supportedLanguages` (bridge.ts:25-27). -/
def supportedLanguages : List String :=
  ["haskell", "python", "rescript", "typescript", "rust", "golang"]

/-- Model of `CodeTraverseBridge.isLanguageSupported` (bridge.ts:248-250):
`this.supportedLanguages.includes(language)`. -/
def isLanguageSupported (language : String) : Bool :=
  supportedLanguages.contains language

/-- Model of `CodeTraverseBridge.validateLanguage` (bridge.ts:382-386): throws
`InvalidLanguageError` when the membership test fails. -/
def validateLanguage (language : String) : Except BridgeError Unit :=
  if isLanguageSupported language then Except.ok ()
  else Except.error (BridgeError.invalidLanguage language)

/-- Model of `CodeTraverseBridge.analyzeFile` (bridge.ts:40-49): validate the
language, then run the single-file analysis.  (`JSON.parse` of the
resulting stdout is outside this model; `wrapError` returns `Error`
instances unchanged, so the runner's errors propagate as they are.) -/
def analyzeFile (defTimeout : Int) (fsEx : String → Bool) (ev : ProcEvent)
    (out err : String) (filePath language : String) : RunOutcome :=
  match validateLanguage language with
  | Except.error e => ⟨[], [], Except.error e⟩
  | Except.ok _ => runSingleFileAnalysis defTimeout fsEx ev out err filePath language

/-- Model of `AnalysisOptions` (types.ts), the fields this model uses. -/
structure AnalysisOptions where
  language : String
  outputBase : Option String
  graphDir : Option String

/-- Model of `CodeTraverseBridge.analyzeWorkspace` (bridge.ts:54-75): validate the
language, default the output directories, then run the schema
extraction. -/
def analyzeWorkspace (defTimeout : Int) (fsEx : String → Bool) (ev : ProcEvent)
    (out err : String) (rootPath : String) (options : AnalysisOptions) : RunOutcome :=
  match validateLanguage options.language with
  | Except.error e => ⟨[], [], Except.error e⟩
  | Except.ok _ =>
      let outputBase := options.outputBase.getD ("fdep")
      let graphDir := options.graphDir.getD ("graph")
      runSchemaExtraction defTimeout fsEx ev out err rootPath options.language
        (some outputBase) (some graphDir)

/-! ## Array aliasing model for `getSupportedLanguages`

`getSupportedLanguages` returns `[...this.supportedLanguages]`, a fresh
array.  To state that mutating the returned array cannot affect the
bridge, arrays of strings live in a small heap: references are `Nat`,
allocation hands out the next fresh reference. -/

/-- A heap of string arrays with an allocation counter. -/
structure JsHeap where
  mem : Nat → List String
  next : Nat

/-- Dereference. -/
def heapRead (h : JsHeap) (r : Nat) : List String := h.mem r

/-- In-place mutation of the array behind `r` (models e.g.
`arr.push(...)`, `arr[0] = ...`, replacing the whole contents with `v`). -/
def heapWrite (h : JsHeap) (r : Nat) (v : List String) : JsHeap :=
  ⟨fun n => if n = r then v else h.mem n, h.next⟩

/-- Allocate a new array holding `v`; returns the fresh reference. -/
def heapAlloc (h : JsHeap) (v : List String) : JsHeap × Nat :=
  (⟨fun n => if n = h.next then v else h.mem n, h.next + 1⟩, h.next)

/-- The heap before any allocation. -/
def emptyHeap : JsHeap := ⟨fun _ => [], 0⟩

/-- A bridge object: the reference to its private `supportedLanguages`
array. -/
structure JsBridgeObj where
  supportedRef : Nat

/-- Model of `new CodeTraverseBridge(...)`: the field initializer allocates the
`supportedLanguages` array. -/
def newBridge (h : JsHeap) : JsHeap × JsBridgeObj :=
  let p := heapAlloc h supportedLanguages
  (p.1, ⟨p.2⟩)

/-- Model of `CodeTraverseBridge.getSupportedLanguages` (bridge.ts:241-243):
`return [...this.supportedLanguages]` — read the private array and
allocate a fresh copy; the caller receives the new reference. -/
def getSupportedLanguagesOn (h : JsHeap) (b : JsBridgeObj) : JsHeap × Nat :=
  heapAlloc h (heapRead h b.supportedRef)

/-- Model of `isLanguageSupported` against the heap: membership in the private
array's current contents. -/
def isLanguageSupportedOn (h : JsHeap) (b : JsBridgeObj) (language : String) : Bool :=
  (heapRead h b.supportedRef).contains language

/-! ## Supporting lemmas -/

/-- A split always yields at least one segment. -/
theorem splitOnCharAux_length_pos (c : Char) (cur l : List Char) :
    1 ≤ (splitOnCharAux c cur l).length := by
  induction l generalizing cur with
  | nil => simp [splitOnCharAux]
  | cons x xs ih =>
      simp only [splitOnCharAux]
      split
      · simp
      · exact ih _

/-- A split on a character that occurs yields at least two segments. -/
theorem splitOnCharAux_length_two (c : Char) (l : List Char) :
    ∀ cur, c ∈ l → 2 ≤ (splitOnCharAux c cur l).length := by
  induction l with
  | nil => intro cur h; cases h
  | cons x xs ih =>
      intro cur h
      simp only [splitOnCharAux]
      by_cases hx : x = c
      · rw [if_pos hx]
        have := splitOnCharAux_length_pos c [] xs
        simpa using this
      · rw [if_neg hx]
        have hmem : c ∈ xs := by
          rcases List.mem_cons.mp h with h' | h'
          · exact absurd h'.symm hx
          · exact h'
        exact ih (x :: cur) hmem

/-- The single-character `String.prototype.includes` test is membership. -/
theorem contains_char_mem (c : Char) (l : List Char) :
    l.contains c = true ↔ c ∈ l := by
  simp [List.elem_iff]

/-- With no section active and no banner on the line, one loop iteration
of `parseNeighborResult` leaves the state unchanged. -/
theorem neighborStep_noSection (st : NeighborAcc) (line : List Char)
    (h1 : containsSub ("edges INTO".data) line = false)
    (h2 : containsSub ("edges OUT OF".data) line = false)
    (hsec : st.sec = none) : neighborStep st line = st := by
  unfold neighborStep
  rw [h1, h2]
  simp only [Bool.false_eq_true, if_false]
  cases hm : matchEdge line with
  | none => simp [hsec]
  | some r => obtain ⟨f, r', t⟩ := r; simp [hsec]

/-- Folding the loop over banner-free lines never leaves the initial
`null` section, hence never accumulates an edge. -/
theorem foldl_neighborStep_noBanner (lines : List (List Char)) :
    ∀ st : NeighborAcc,
      (∀ l ∈ lines, containsSub ("edges INTO".data) l = false ∧
        containsSub ("edges OUT OF".data) l = false) →
      st.sec = none → lines.foldl neighborStep st = st := by
  induction lines with
  | nil => intro st _ _; rfl
  | cons l ls ih =>
      intro st hb hsec
      have h1 := (hb l (by simp)).1
      have h2 := (hb l (by simp)).2
      rw [List.foldl_cons, neighborStep_noSection st l h1 h2 hsec]
      exact ih st (fun x hx => hb x (by simp [hx])) hsec

/-! ## Claim theorems -/

/-- C1: for every invocation of `executeCommand`, clean termination with
exit code 0 resolves with the whitespace-trimmed stdout and stderr texts,
and clean termination with a non-zero exit code rejects with a
`PythonProcessError` (the spec's `ExecutionFailure`) carrying exactly that
exit code and the trimmed captured stderr text. -/
theorem executeCommand_exit_mapping :
    (∀ (tm : Option Int) (dt : Int) (out err : String),
        (executeCommand tm dt (ProcEvent.closed (some 0)) out err).2
          = Except.ok ⟨jsTrim out, jsTrim err⟩) ∧
    (∀ (tm : Option Int) (dt : Int) (n : Int) (out err : String), n ≠ 0 →
        (executeCommand tm dt (ProcEvent.closed (some n)) out err).2
          = Except.error (BridgeError.pythonProcess
              ("Python process exited with code " ++ toString n) n (jsTrim err))) := by
  constructor
  · intro tm dt out err; rfl
  · intro tm dt n out err hn
    simp [executeCommand, codeOrUnknown, codeOrNegOne, hn]

/-- Witness for C1: a process exiting 0 with stdout `"OK"` resolves with
stdout `"OK"`; a process exiting 2 with stderr `"boom"` fails with exit
code 2 and stderr `"boom"`. -/
theorem executeCommand_exit_mapping_w :
    (executeCommand none 60000 (ProcEvent.closed (some 0)) ("OK") ("")).2
      = Except.ok ⟨("OK"), ("")⟩ ∧
    (executeCommand none 60000 (ProcEvent.closed (some 2)) ("") ("boom")).2
      = Except.error (BridgeError.pythonProcess
          ("Python process exited with code 2") 2 ("boom")) := by
  constructor
  · have h := executeCommand_exit_mapping.1 none 60000 ("OK") ("")
    rw [h]; rfl
  · have h := executeCommand_exit_mapping.2 none 60000 2 ("") ("boom") (by decide)
    rw [h]; rfl

/-- C4: an `executeCommand` invocation that is not explicitly unbounded
(`timeoutMs ≠ -1`) schedules its timeout timer; when the timer fires the
process is terminated forcibly and unconditionally with the single signal
`SIGKILL` (no cooperative shutdown signal precedes it), and the call
rejects with the timeout error carrying the configured duration
`timeoutMs || this.timeout`. -/
theorem executeCommand_timeout (tm : Option Int) (dt : Int)
    (hbounded : tm ≠ some (-1)) (out err : String) :
    (executeCommandTimers tm).scheduled = true ∧
    executeCommand tm dt ProcEvent.timedOut out err
      = ([KillSignal.sigkill], Except.error (BridgeError.pythonProcess
          ("Python process timed out after " ++ toString (actualTimeoutOf tm dt) ++ "ms")
          (-1) ("Process timeout"))) := by
  constructor
  · simp [executeCommandTimers, hbounded]
  · rfl

/-- Witness for C4: the default-timeout invocation (no override) with the
60000 ms configuration default. -/
theorem executeCommand_timeout_w :
    (executeCommandTimers none).scheduled = true ∧
    executeCommand none 60000 ProcEvent.timedOut ("") ("")
      = ([KillSignal.sigkill], Except.error (BridgeError.pythonProcess
          ("Python process timed out after 60000ms") (-1) ("Process timeout"))) := by
  have h := executeCommand_timeout none 60000 (by decide) ("") ("")
  refine ⟨h.1, ?_⟩
  rw [h.2]; rfl

/-- C7 (code bug evidence): `executeCommand` schedules a timeout timer on
an ordinary invocation, but the handle its settling handlers pass to
`clearTimeout` is the outer `timer` binding, which is still `undefined`
because the `setTimeout` result was bound to a shadowing inner `const`;
so the timer of `executeCommand` is never released on any exit path,
while `executeShell` does release its timer. -/
theorem executeCommand_timer_leak :
    (executeCommandTimers none).scheduled = true ∧
    (executeCommandTimers none).clearArg = none ∧
    timerReleased (executeCommandTimers none) = false ∧
    timerReleased executeShellTimers = true := by
  refine ⟨by decide, rfl, by decide, by decide⟩

/-- C8 counterexample: `createEnv` is not unbounded — its preparation
invocation runs under `executeShell`'s fixed 300000 ms ceiling, and when
that timer fires the call fails with the timeout error, so a
sufficiently long preparation run does raise a timeout. -/
theorem createEnv_timeout_cex :
    executeShellTimers.scheduled = true ∧
    (createEnv ProcEvent.timedOut ("") ("")).2
      = Except.error (BridgeError.shellScript
          ("Python process timed out after 300000ms") (-1) ("Process timeout")) := by
  constructor
  · rfl
  · rfl

/-- C8 (amended): `createEnv` performs exactly one preparation invocation
through `executeShell`, bounded by the fixed 300000 ms ceiling (materially
larger than the 60000 ms default); the call resolves with the trimmed
output on exit code 0, propagates the failure on non-zero exit or spawn
error, and fails with a timeout error carrying 300000 ms if the
preparation outlives the ceiling. -/
theorem createEnv_behavior :
    shellTimeoutMs = 300000 ∧ (60000 : Int) < shellTimeoutMs ∧
    (∀ out err, (createEnv (ProcEvent.closed (some 0)) out err).2
        = Except.ok ⟨jsTrim out, jsTrim err⟩) ∧
    (∀ (c : Option Int) out err, c ≠ some 0 →
        (createEnv (ProcEvent.closed c) out err).2
          = Except.error (BridgeError.shellScript
              ("shell script exited with code " ++ codeOrUnknown c)
              (codeOrNegOne c) (jsTrim err))) ∧
    (∀ msg out err, (createEnv (ProcEvent.errored msg) out err).2
        = Except.error (BridgeError.shellScript
            ("Failed to spawn Python process: " ++ msg) (-1) msg)) ∧
    (∀ out err, (createEnv ProcEvent.timedOut out err).2
        = Except.error (BridgeError.shellScript
            ("Python process timed out after " ++ toString shellTimeoutMs ++ "ms")
            (-1) ("Process timeout"))) := by
  refine ⟨rfl, by decide, fun out err => rfl, ?_, fun msg out err => rfl,
    fun out err => rfl⟩
  intro c out err hc
  simp [createEnv, executeShell, hc]

/-- Witness for C8's amended claim: a preparation step exiting 2 with
stderr `"boom"` propagates as a `ShellScriptError` with that exit code. -/
theorem createEnv_behavior_w :
    (createEnv (ProcEvent.closed (some 2)) ("") ("boom")).2
      = Except.error (BridgeError.shellScript
          ("shell script exited with code 2") 2 ("boom")) := by
  have h := createEnv_behavior.2.2.2.1 (some 2) ("") ("boom") (by decide)
  rw [h]; rfl

/-- C10: `getSupportedLanguages` returns a fresh copy of the
supported-language list: the returned reference is distinct from the
bridge's private array, its contents are exactly
`['haskell','python','rescript','typescript','rust','golang']` in order,
and overwriting the returned array changes neither the private array, nor
any later `isLanguageSupported`, nor a later `getSupportedLanguages`. -/
theorem getSupportedLanguages_fresh :
    (heapRead (getSupportedLanguagesOn (newBridge emptyHeap).1 (newBridge emptyHeap).2).1
        (getSupportedLanguagesOn (newBridge emptyHeap).1 (newBridge emptyHeap).2).2
      = ["haskell", "python", "rescript", "typescript", "rust", "golang"]) ∧
    (getSupportedLanguagesOn (newBridge emptyHeap).1 (newBridge emptyHeap).2).2
      ≠ (newBridge emptyHeap).2.supportedRef ∧
    (∀ v : List String,
      heapRead
          (heapWrite (getSupportedLanguagesOn (newBridge emptyHeap).1 (newBridge emptyHeap).2).1
            (getSupportedLanguagesOn (newBridge emptyHeap).1 (newBridge emptyHeap).2).2 v)
          (newBridge emptyHeap).2.supportedRef
        = supportedLanguages ∧
      (∀ language,
        isLanguageSupportedOn
            (heapWrite (getSupportedLanguagesOn (newBridge emptyHeap).1 (newBridge emptyHeap).2).1
              (getSupportedLanguagesOn (newBridge emptyHeap).1 (newBridge emptyHeap).2).2 v)
            (newBridge emptyHeap).2 language
          = isLanguageSupported language) ∧
      heapRead
          (getSupportedLanguagesOn
            (heapWrite (getSupportedLanguagesOn (newBridge emptyHeap).1 (newBridge emptyHeap).2).1
              (getSupportedLanguagesOn (newBridge emptyHeap).1 (newBridge emptyHeap).2).2 v)
            (newBridge emptyHeap).2).1
          (getSupportedLanguagesOn
            (heapWrite (getSupportedLanguagesOn (newBridge emptyHeap).1 (newBridge emptyHeap).2).1
              (getSupportedLanguagesOn (newBridge emptyHeap).1 (newBridge emptyHeap).2).2 v)
            (newBridge emptyHeap).2).2
        = supportedLanguages) := by
  refine ⟨rfl, by decide, ?_⟩
  intro v
  refine ⟨rfl, fun language => rfl, rfl⟩

/-- C2: `isLanguageSupported` is exactly membership in the closed
six-language enumeration, and `analyzeFile`/`analyzeWorkspace` with an
unsupported language fail with `InvalidLanguageError` having spawned no
process. -/
theorem language_gate :
    (∀ language, isLanguageSupported language = true ↔ language ∈ supportedLanguages) ∧
    (supportedLanguages
      = ["haskell", "python", "rescript", "typescript", "rust", "golang"]) ∧
    (∀ (dt : Int) (fsEx : String → Bool) (ev : ProcEvent) (out err fp language : String),
      isLanguageSupported language = false →
        analyzeFile dt fsEx ev out err fp language
          = ⟨[], [], Except.error (BridgeError.invalidLanguage language)⟩) ∧
    (∀ (dt : Int) (fsEx : String → Bool) (ev : ProcEvent) (out err root : String)
        (options : AnalysisOptions),
      isLanguageSupported options.language = false →
        analyzeWorkspace dt fsEx ev out err root options
          = ⟨[], [], Except.error (BridgeError.invalidLanguage options.language)⟩) := by
  refine ⟨?_, rfl, ?_, ?_⟩
  · intro language
    simp [isLanguageSupported, List.elem_iff]
  · intro dt fsEx ev out err fp language h
    simp [analyzeFile, validateLanguage, h]
  · intro dt fsEx ev out err root options h
    simp [analyzeWorkspace, validateLanguage, h]

/-- Witness for C2: `javascript` is not supported, and both operations
reject it without spawning. -/
theorem language_gate_w :
    isLanguageSupported ("javascript") = false ∧
    analyzeFile 60000 (fun _ => true) (ProcEvent.closed (some 0)) ("") ("")
        ("/f.ts") ("javascript")
      = ⟨[], [], Except.error (BridgeError.invalidLanguage ("javascript"))⟩ ∧
    analyzeWorkspace 60000 (fun _ => true) (ProcEvent.closed (some 0)) ("") ("")
        ("/proj") ⟨("javascript"), none, none⟩
      = ⟨[], [], Except.error (BridgeError.invalidLanguage ("javascript"))⟩ := by
  have h1 : isLanguageSupported ("javascript") = false := by decide
  refine ⟨h1, ?_, ?_⟩
  · exact language_gate.2.2.1 60000 _ _ ("") ("") ("/f.ts") ("javascript") h1
  · exact language_gate.2.2.2 60000 _ _ ("") ("") ("/proj") ⟨("javascript"), none, none⟩ h1

/-- C3: when the required path does not exist, each of the four
path-dependent runner operations fails with `FileNotFoundError` (the
spec's `PathNotFound`) carrying exactly that path, and no process is
spawned. -/
theorem validatePath_gate (fsEx : String → Bool) (p : String) (hp : fsEx p = false) :
    (∀ (dt : Int) (ev : ProcEvent) (out err language : String),
        runSingleFileAnalysis dt fsEx ev out err p language
          = ⟨[], [], Except.error (BridgeError.fileNotFound p)⟩) ∧
    (∀ (dt : Int) (ev : ProcEvent) (out err language : String) (ob gd : Option String),
        runAnalysis dt fsEx ev out err p language ob gd
          = ⟨[], [], Except.error (BridgeError.fileNotFound p)⟩) ∧
    (∀ (dt : Int) (ev : ProcEvent) (out err language : String) (ob gd : Option String),
        runSchemaExtraction dt fsEx ev out err p language ob gd
          = ⟨[], [], Except.error (BridgeError.fileNotFound p)⟩) ∧
    (∀ (dt : Int) (ev : ProcEvent) (out err component : String) (src : Option String),
        runPathQuery dt fsEx ev out err p component src
          = ⟨[], [], Except.error (BridgeError.fileNotFound p)⟩) := by
  refine ⟨?_, ?_, ?_, ?_⟩ <;> intros <;>
    simp [runSingleFileAnalysis, runAnalysis, runSchemaExtraction, runPathQuery,
      validatePath, hp]

/-- Witness for C3: with a filesystem on which no path exists, the
single-file analysis and the path query both fail with the offending
path and spawn nothing. -/
theorem validatePath_gate_w :
    runSingleFileAnalysis 60000 (fun _ => false) (ProcEvent.closed (some 0)) ("") ("")
        ("/missing") ("python")
      = ⟨[], [], Except.error (BridgeError.fileNotFound ("/missing"))⟩ ∧
    runPathQuery 60000 (fun _ => false) (ProcEvent.closed (some 0)) ("") ("")
        ("/missing") ("X") none
      = ⟨[], [], Except.error (BridgeError.fileNotFound ("/missing"))⟩ := by
  have h := validatePath_gate (fun _ => false) ("/missing") rfl
  exact ⟨h.1 60000 _ ("") ("") ("python"), h.2.2.2 60000 _ ("") ("") ("X") none⟩

/-- C5 (code bug evidence): evaluating `parsePathResult` at the claim's
inputs.  The first line containing `'→'` is the header line
`Shortest path from 'A' → 'Z':`, so the decoded path is the split header,
not `["A","B","Z"]`; the `"No path found"` half behaves as stated. -/
theorem parsePathResult_header_bug :
    parsePathResult ("Shortest path from 'A' → 'Z':\n  A → B → Z")
      = ⟨true, some [("Shortest path from 'A'"), ("'Z':")],
          ("Shortest path from 'A' → 'Z':\n  A → B → Z")⟩ ∧
    (parsePathResult ("Shortest path from 'A' → 'Z':\n  A → B → Z")).path
      ≠ some [("A"), ("B"), ("Z")] ∧
    parsePathResult ("No path found") = ⟨false, none, ("No path found")⟩ := by
  refine ⟨by decide, by decide, by decide⟩

/-- C9: for every input, `parsePathResult` satisfies the invariant:
`found` is true exactly when `path` is present; a present path has at
least two entries; and `message` is the raw input unchanged. -/
theorem parsePathResult_invariant (s : String) :
    ((parsePathResult s).found = true ↔ (parsePathResult s).path ≠ none) ∧
    (∀ p, (parsePathResult s).path = some p → 2 ≤ p.length) ∧
    (parsePathResult s).message = s := by
  rcases hf : (splitOnChar '\n' (jsTrimList s.data)).find? (fun line => line.contains '→')
    with _ | pathLine
  · refine ⟨?_, ?_, ?_⟩ <;> simp only [parsePathResult] <;> rw [hf] <;> simp
  · have hcontains : pathLine.contains '→' = true := by
      have h := List.find?_some hf
      simpa using h
    have hmem : '→' ∈ pathLine := (contains_char_mem _ _).mp hcontains
    have hlen2 : 2 ≤ (splitOnChar '→' pathLine).length :=
      splitOnCharAux_length_two '→' pathLine [] hmem
    have hgt2 : 1 < (splitOnChar '→' pathLine).length :=
      lt_of_lt_of_le one_lt_two hlen2
    refine ⟨?_, ?_, ?_⟩
    · simp only [parsePathResult]; rw [hf]; simp
    · intro p hp
      simp only [parsePathResult] at hp
      rw [hf] at hp
      simp [hgt2] at hp
      rw [← hp]
      simpa using hlen2
    · simp only [parsePathResult]; rw [hf]

/-- Witness for C9: the single-line input `"A → B"`, whose decoded path
`["A","B"]` realizes the two-entry lower bound. -/
theorem parsePathResult_invariant_w :
    ((parsePathResult ("A → B")).found = true ↔ (parsePathResult ("A → B")).path ≠ none) ∧
    2 ≤ ([("A"), ("B")] : List String).length ∧
    (parsePathResult ("A → B")).message = ("A → B") := by
  have h := parsePathResult_invariant ("A → B")
  exact ⟨h.1, h.2.1 [("A"), ("B")] (by decide), h.2.2⟩

/-- C6: the neighbor-report decoder: the two banner substrings open the
incoming/outgoing sections; inside a section, a line matching the edge
pattern contributes one edge with the trimmed left identity (incoming)
resp. right identity (outgoing) and the trimmed relation; a non-banner
line that does not match the pattern never changes the state; and an
input none of whose lines contains either banner decodes to empty lists,
not an error. -/
theorem parseNeighborResult_spec :
    (parseNeighborResult
        ("Nodes with edges INTO 'X' (1):\n  A --[calls]--> X\n\nNodes with edges OUT OF 'X' (1):\n  X --[uses]--> B")
      = ⟨[⟨("A"), ("calls")⟩], [⟨("B"), ("uses")⟩]⟩) ∧
    (∀ (st : NeighborAcc) (line : List Char),
      containsSub (("edges INTO").data) line = false →
      containsSub (("edges OUT OF").data) line = false →
      matchEdge line = none → neighborStep st line = st) ∧
    (∀ (i : List InEdge) (o : List OutEdge) (line f r t : List Char),
      containsSub (("edges INTO").data) line = false →
      containsSub (("edges OUT OF").data) line = false →
      matchEdge line = some (f, r, t) →
      neighborStep ⟨i, o, some EdgeSection.incoming⟩ line
        = ⟨i ++ [⟨String.mk (jsTrimList f), String.mk (jsTrimList r)⟩], o,
            some EdgeSection.incoming⟩ ∧
      neighborStep ⟨i, o, some EdgeSection.outgoing⟩ line
        = ⟨i, o ++ [⟨String.mk (jsTrimList t), String.mk (jsTrimList r)⟩],
            some EdgeSection.outgoing⟩) ∧
    (∀ s : String,
      (∀ l ∈ splitOnChar '\n' (jsTrimList s.data),
        containsSub (("edges INTO").data) l = false ∧
        containsSub (("edges OUT OF").data) l = false) →
      parseNeighborResult s = ⟨[], []⟩) := by
  refine ⟨by decide, ?_, ?_, ?_⟩
  · intro st line h1 h2 h3
    rcases st with ⟨i, o, sec⟩
    rcases sec with _ | es
    · exact neighborStep_noSection ⟨i, o, none⟩ line h1 h2 rfl
    · cases es <;> simp [neighborStep, h1, h2, h3]
  · intro i o line f r t h1 h2 h3
    constructor <;> simp [neighborStep, h1, h2, h3]
  · intro s hb
    have h := foldl_neighborStep_noBanner (splitOnChar '\n' (jsTrimList s.data))
      ⟨[], [], none⟩ hb rfl
    simp [parseNeighborResult, h]

/-- Witness for C6: a non-matching line inside a section is ignored; a
matching line inside the incoming section contributes its trimmed edge;
a banner-free input decodes to empty lists. -/
theorem parseNeighborResult_spec_w :
    neighborStep ⟨[], [], some EdgeSection.incoming⟩ (("Total: 3 edges").data)
      = ⟨[], [], some EdgeSection.incoming⟩ ∧
    neighborStep ⟨[], [], some EdgeSection.incoming⟩ (("  A --[calls]--> X").data)
      = ⟨[⟨("A"), ("calls")⟩], [], some EdgeSection.incoming⟩ ∧
    parseNeighborResult ("No neighbors") = ⟨[], []⟩ := by
  refine ⟨?_, ?_, ?_⟩
  · exact parseNeighborResult_spec.2.1 _ _ (by decide) (by decide) (by decide)
  · have h := (parseNeighborResult_spec.2.2.1 [] [] (("  A --[calls]--> X").data)
      (("  A").data) (("calls").data) (("X").data) (by decide) (by decide) (by decide)).1
    rw [h]; rfl
  · exact parseNeighborResult_spec.2.2.2 ("No neighbors") (by decide)

end CodeTraverse
